import Mathlib

/-!
Shallow embedding of `pitivi_echonest_extension/echonest_extension.py`.

The module is GUI glue: an `EchonestExtension` that analyses audio files
through the pyechonest web SDK, caches pickled analysis objects under the
XDG cache directory keyed by a content hash, and an `AudioPreviewer` that
draws a pre-rendered waveform with beat markers.

Modelling conventions:
* Python floats are modelled as rationals (`ℚ`).
* The file system is a partial map from path strings to cache entries; a
  cache file is either a well-formed pickle of the stored value or
  malformed bytes (on which `pickle.load` raises).
* External functions (`hash_file`, `get_dir`, `xdg_cache_home`,
  `pyechonest.track.track_from_filename`, `Track.get_analysis`) live in an
  environment record `Env`; they are parameters of the model.
* Exceptions are modelled with `Except PyExn`; the trace of observable
  effects of the worker (cache reads/writes, network calls, callback
  invocations) is recorded as a list of events.
-/

namespace EchonestModel

/-- Python exception classes relevant to this module. -/
inductive PyExn
  | ioError
  | unpicklingError
  | valueError
  | attributeError
  | typeError
  | socketErr
deriving DecidableEq, Repr

instance {ε α : Type} [DecidableEq ε] [DecidableEq α] : DecidableEq (Except ε α)
  | .error e1, .error e2 =>
    if h : e1 = e2 then .isTrue (by rw [h]) else .isFalse (fun hh => by cases hh; exact h rfl)
  | .error _, .ok _ => .isFalse (fun hh => by cases hh)
  | .ok _, .error _ => .isFalse (fun hh => by cases hh)
  | .ok a1, .ok a2 =>
    if h : a1 = a2 then .isTrue (by rw [h]) else .isFalse (fun hh => by cases hh; exact h rfl)

/-- One beat entry of a pyechonest analysis: `beat['start']` is the beat's
start time in seconds (a Python float, modelled as `ℚ`). -/
structure Beat where
  start : ℚ
deriving DecidableEq, Repr

/-- A metadata attribute value as seen by `__fill_metadata_list`: either a
scalar rendered with `str(value)`, or a list whose only used feature is
`len(value)`. -/
inductive PyAttr
  | scalar (s : String)
  | listOf (len : Nat)
deriving DecidableEq, Repr

/-- A pyechonest `Track` analysis object.  `duration` and `beats` are the
attributes the extension computes with; `attrs` is the `track.__dict__`
view iterated by `__fill_metadata_list` (attribute name to value). -/
structure Track where
  duration : ℚ
  beats : List Beat
  attrs : List (String × PyAttr)
deriving DecidableEq, Repr

/-- Contents of one `.analysis` cache file: a well-formed pickle of a
track, or malformed bytes (e.g. a truncated write), on which
`pickle.load` raises. -/
inductive CacheEntry
  | valid (t : Track)
  | malformed
deriving DecidableEq, Repr

/-- Contents of one `.wave` cache file: a well-formed pickle of a peak
list, or malformed bytes. -/
inductive WaveEntry
  | valid (peaks : List ℚ)
  | malformed
deriving DecidableEq, Repr

/-- The analysis-cache portion of the file system: path to file contents;
`none` means the file does not exist (`open` raises `IOError`). -/
def CacheFS : Type := String → Option CacheEntry

/-- The waves-cache portion of the file system. -/
def WaveFS : Type := String → Option WaveEntry

/-- External functions the module imports from pitivi and pyechonest.
`hash_file` is pitivi's content hash of the file at a given path (the
media files themselves are fixed during a run, so it is a function of
the path); `get_dir` ensures a directory exists and returns it;
`track_from_filename` uploads the file to the Echonest service and
`get_analysis` fetches the analysis (modelled as returning the updated
track; in Python it mutates the track in place).  Either network call
may raise. -/
structure Env where
  hash_file : String → String
  xdg_cache_home : String
  get_dir : String → String
  track_from_filename : String → Except PyExn Track
  get_analysis : Track → Except PyExn Track

/-- `os.path.join` for the relative second components this module uses. -/
def ospath_join (a b : String) : String := a ++ "/" ++ b

/-- Cache path computed by `__load_from_cache` (lines 96-98):
`hash_file(filename) + '.analysis'` under the `echonest` subdirectory of
the XDG cache directory. -/
def load_cache_path (env : Env) (filename : String) : String :=
  let f := env.hash_file filename ++ ".analysis"
  let cache_dir := env.get_dir (ospath_join env.xdg_cache_home "echonest")
  ospath_join cache_dir f

/-- Cache path computed by `__save_to_cache` (lines 106-108), written out
separately because the source duplicates the three lines. -/
def save_cache_path (env : Env) (filename : String) : String :=
  let f := env.hash_file filename ++ ".analysis"
  let cache_dir := env.get_dir (ospath_join env.xdg_cache_home "echonest")
  ospath_join cache_dir f

/-- `EchonestExtension.__load_from_cache`: opens the cache file and
unpickles it; `IOError` from `open` (the file does not exist) is caught
and turned into `None`; an unpickling error propagates. -/
def load_from_cache (env : Env) (fs : CacheFS) (filename : String) :
    Except PyExn (Option Track) :=
  match fs (load_cache_path env filename) with
  | none => .ok none
  | some .malformed => .error .unpicklingError
  | some (.valid t) => .ok (some t)

/-- `EchonestExtension.__save_to_cache`: pickles the track into the cache
file, overwriting it. -/
def save_to_cache (env : Env) (fs : CacheFS) (filename : String) (track : Track) : CacheFS :=
  fun p => if p = save_cache_path env filename then some (.valid track) else fs p

/-- Observable effects of one `analysis_worker` run. -/
inductive Event
  | cacheRead (path : String) (result : Except PyExn (Option Track))
  | netTrackFromFilename (filename : String)
  | netGetAnalysis
  | cacheWrite (path : String) (t : Track)
  | callbackCall (t : Track)
deriving DecidableEq

def Event.isNetwork : Event → Bool
  | .netTrackFromFilename _ => true
  | .netGetAnalysis => true
  | _ => false

def Event.isCacheWrite : Event → Bool
  | .cacheWrite _ _ => true
  | _ => false

def Event.isCallback : Event → Bool
  | .callbackCall _ => true
  | _ => false

/-- Result of one `analysis_worker` run: the trace of events in program
order, the resulting cache file system, and the exception that escaped
the worker (and kills the thread), if any. -/
structure WorkerRun where
  events : List Event
  fs : CacheFS
  err : Option PyExn

/-- `EchonestExtension.analysis_worker` (lines 112-121).  It loads from
the cache; `if not track` (a pickled pyechonest `Track` object is always
truthy, so this tests for `None`) it calls `track_from_filename`, then
`get_analysis`, then saves to the cache; finally `if (callback)` it
invokes the callback with the track. `hasCallback` models the truthiness
of the `callback` argument (`None` in the asset-menu path). -/
def analysis_worker (env : Env) (fs : CacheFS) (filename : String) (hasCallback : Bool) :
    WorkerRun :=
  let path := load_cache_path env filename
  match load_from_cache env fs filename with
  | .error e =>
      { events := [.cacheRead path (.error e)], fs := fs, err := some e }
  | .ok (some t) =>
      { events := [.cacheRead path (.ok (some t))]
          ++ (if hasCallback then [.callbackCall t] else []),
        fs := fs, err := none }
  | .ok none =>
      match env.track_from_filename filename with
      | .error e =>
          { events := [.cacheRead path (.ok none), .netTrackFromFilename filename],
            fs := fs, err := some e }
      | .ok t0 =>
          match env.get_analysis t0 with
          | .error e =>
              { events := [.cacheRead path (.ok none), .netTrackFromFilename filename,
                  .netGetAnalysis],
                fs := fs, err := some e }
          | .ok t =>
              { events := [.cacheRead path (.ok none), .netTrackFromFilename filename,
                  .netGetAnalysis, .cacheWrite (save_cache_path env filename) t]
                  ++ (if hasCallback then [.callbackCall t] else []),
                fs := save_to_cache env fs filename t, err := none }

/-- Arguments a spawned thread passes to `analysis_worker`. -/
structure WorkerArgs where
  filename : String
  hasCallback : Bool
deriving DecidableEq, Repr

/-- The `threading` API surface touched by `__analyse_track`: thread
creation with a target, daemon-flag assignment, start, and the calls the
code could have made but does not (join-with-timeout, cancellation). -/
inductive ThreadOp
  | create (args : WorkerArgs)
  | setDaemon (d : Bool)
  | start
  | join (timeoutSeconds : Option ℚ)
  | cancel
deriving DecidableEq

def ThreadOp.isCreate : ThreadOp → Bool
  | .create _ => true
  | _ => false

/-- `EchonestExtension.__analyse_track` (lines 123-127): creates one
`threading.Thread` with target `analysis_worker` and the given arguments,
sets `t.daemon = True`, and starts it. -/
def analyse_track (filename : String) (hasCallback : Bool) : List ThreadOp :=
  [.create { filename := filename, hasCallback := hasCallback }, .setDaemon true, .start]

/-- What a created thread runs: `analysis_worker` applied to the recorded
arguments. -/
def run_thread (env : Env) (fs : CacheFS) (a : WorkerArgs) : WorkerRun :=
  analysis_worker env fs a.filename a.hasCallback

/-- Cache path computed by `AudioPreviewer.__init__` (lines 30-32):
`hash_file(clip_filename) + '.wave'` under the `waves` subdirectory of the
XDG cache directory. -/
def waves_cache_path (env : Env) (clip_filename : String) : String :=
  let f := env.hash_file clip_filename ++ ".wave"
  let cache_dir := env.get_dir (ospath_join env.xdg_cache_home "waves")
  ospath_join cache_dir f

/-- Python `max` on a list: raises `ValueError` on an empty sequence. -/
def pyMax (l : List ℚ) : Except PyExn ℚ :=
  match l with
  | [] => .error .valueError
  | x :: xs => .ok (xs.foldl max x)

/-- State of an `AudioPreviewer` instance: the unpickled peak list, its
recorded maximum, the track, and the marker positions (initially `[]`). -/
structure PreviewerState where
  peaks : List ℚ
  max_peak : ℚ
  track : Track
  markers : List ℚ
deriving DecidableEq, Repr

/-- `AudioPreviewer.__init__` (lines 29-44): opens the waves cache file
(no exception handler: a missing file raises `IOError`), unpickles the
peak list (malformed bytes raise), takes `max(self.__peaks)` (raises
`ValueError` on an empty list), and initialises `self.__markers = []`. -/
def audioPreviewer_init (env : Env) (waves : WaveFS) (track : Track) (clip_filename : String) :
    Except PyExn PreviewerState :=
  match waves (waves_cache_path env clip_filename) with
  | none => .error .ioError
  | some .malformed => .error .unpicklingError
  | some (.valid peaks) =>
    match pyMax peaks with
    | .error e => .error e
    | .ok mp => .ok { peaks := peaks, max_peak := mp, track := track, markers := [] }

/-- One vertical marker line drawn by `draw_cb`: `move_to(x, 0)` then
`line_to(x, height)` with `x = marker * width`. -/
structure Line where
  x1 : ℚ
  y1 : ℚ
  x2 : ℚ
  y2 : ℚ
deriving DecidableEq, Repr

/-- The arguments `draw_cb` passes to `renderer.fill_surface`: a copy of
the peak list (`self.__peaks[:]`; lists are immutable here so the copy is
the list itself), the drawing area's current width and height, and the
recorded maximum peak. -/
structure FillSurfaceCall where
  peaks : List ℚ
  width : ℤ
  height : ℤ
  max_peak : ℚ
deriving DecidableEq, Repr

/-- What one `draw_cb` invocation renders. -/
structure DrawResult where
  fill : FillSurfaceCall
  lines : List Line
deriving DecidableEq, Repr

/-- `AudioPreviewer.draw_cb` (lines 46-73): rasterizes the peak list via
`renderer.fill_surface(self.__peaks[:], width, height, self.__max_peak)`,
paints it, then for each marker draws a vertical line from
`(marker * width, 0)` to `(marker * width, height)`. -/
def draw_cb (p : PreviewerState) (width height : ℤ) : DrawResult :=
  { fill := { peaks := p.peaks, width := width, height := height, max_peak := p.max_peak },
    lines := p.markers.map (fun m =>
      { x1 := m * (width : ℚ), y1 := 0, x2 := m * (width : ℚ), y2 := (height : ℚ) }) }

/-- `AudioPreviewer.set_markers` (lines 75-76). -/
def set_markers (p : PreviewerState) (markers : List ℚ) : PreviewerState :=
  { p with markers := markers }

/-- `METADATA_BLACKLIST` (lines 20-24). -/
def METADATA_BLACKLIST : List String :=
  ["pyechostring", "codestring", "synchstring",
   "analysis_url", "rhythmstring", "echoprintstring", "meta",
   "_object_type", "audio_md5", "cache", "code_version",
   "decoder_version", "echoprint_version", "id", "md5",
   "rhythm_version", "sample_md5", "status", "synch_version"]

/-- `LIST_TYPED_METADATA` (line 26). -/
def LIST_TYPED_METADATA : List String :=
  ["segments", "tatums", "beats", "bars", "sections"]

/-- Code-point comparison of char lists (Python `<` on strings). -/
def strLtAux : List Char → List Char → Bool
  | [], [] => false
  | [], _ :: _ => true
  | _ :: _, [] => false
  | a :: as, b :: bs =>
    if a.val < b.val then true else if b.val < a.val then false else strLtAux as bs

/-- Python `<` on strings: lexicographic on code points. -/
def strLt (a b : String) : Bool := strLtAux a.data b.data

/-- Stable insertion preserving original order among equal keys. -/
def insertSorted {α : Type} (lt : α → α → Bool) (x : α) : List α → List α
  | [] => [x]
  | y :: ys => if lt x y then x :: y :: ys else y :: insertSorted lt x ys

/-- Python `sorted` (stable ascending sort), as insertion sort. -/
def pySorted {α : Type} (lt : α → α → Bool) : List α → List α
  | [] => []
  | x :: xs => insertSorted lt x (pySorted lt xs)

/-- Label text for one metadata entry (lines 141-144): names in
`LIST_TYPED_METADATA` are rendered as `"Number of %s : %d" % (name,
len(value))` (`len` of a non-sequence raises `TypeError`), other names as
`"%s : %s" % (name, str(value))`. -/
def format_metadata (name : String) (v : PyAttr) : Except PyExn String :=
  if name ∈ LIST_TYPED_METADATA then
    match v with
    | .listOf n => .ok ("Number of " ++ name ++ " : " ++ toString n)
    | .scalar _ => .error .typeError
  else
    match v with
    | .listOf _ => .ok (name ++ " : " ++ "<list>")
    | .scalar s => .ok (name ++ " : " ++ s)

/-- `EchonestExtension.__fill_metadata_list` (lines 135-154): iterates
`sorted(track.__dict__.items())`, skips blacklisted names, and adds one
label per remaining attribute to the `metadata-list` listbox —
`prepend` (front) for list-typed names, `insert(label, -1)` (append)
otherwise.  Returns the listbox's label list. -/
def fill_metadata_list (track : Track) (labels0 : List String) : Except PyExn (List String) :=
  (pySorted (fun a b => strLt a.1 b.1) track.attrs).foldlM
    (fun acc nv =>
      if nv.1 ∈ METADATA_BLACKLIST then pure acc
      else do
        let text ← format_metadata nv.1 nv.2
        if nv.1 ∈ LIST_TYPED_METADATA then pure (text :: acc)
        else pure (acc ++ [text]))
    labels0

/-- The dialog widgets `__compute_markers` and `__prepare_beat_matcher`
read and write, keyed by the builder ids used in the source
(`range-combo`, `select-type-combo`, `distribution-combo`,
`step-spinner`, `beat_label`, `metadata-list`). -/
structure DialogWidgets where
  range_combo_active : String
  select_type_active : String
  distribution_active : String
  step_spinner_value : ℚ
  beat_label_text : String
  range_sensitive : Bool
  select_type_sensitive : Bool
  distribution_sensitive : Bool
  step_sensitive : Bool
  metadata_labels : List String
deriving DecidableEq, Repr

/-- A `Gtk.Builder` with an object identity (Python `!=` on builders is
identity comparison) and the widget state it owns. -/
structure Builder where
  oid : Nat
  widgets : DialogWidgets
deriving DecidableEq, Repr

/-- The mutable per-dialog state of `EchonestExtension`:
`self.__current_builder`, `self.__current_track`,
`self.__audio_previewer`. -/
structure ExtensionState where
  current_builder : Option Builder
  current_track : Option Track
  audio_previewer : Option PreviewerState
deriving DecidableEq, Repr

/-- GUI side effects observable outside the modelled widget state. -/
inductive UIEvent
  | queueDraw
  | addStyleClass (cls : String)
deriving DecidableEq, Repr

/-- `int()` on a Python float: truncation toward zero. -/
def pyTruncInt (q : ℚ) : ℤ := Int.tdiv q.num q.den

/-- Elements of a list at indices 0, s, 2*s, ... (Python `l[0::s]` for a
positive step `s`). -/
def everyNth {α : Type} (s : Nat) : List α → List α
  | [] => []
  | x :: xs => x :: everyNth s (xs.drop (s - 1))
termination_by l => l.length
decreasing_by
  simp only [List.length_drop, List.length_cons]
  omega

/-- Python slicing `l[0::step]` over arbitrary integer steps: raises
`ValueError` when the step is zero; a negative step starting at index 0
yields just the first element (when any). -/
def pySliceStep {α : Type} (l : List α) (step : ℤ) : Except PyExn (List α) :=
  if step = 0 then .error .valueError
  else if step < 0 then .ok (l.take 1)
  else .ok (everyNth step.toNat l)

/-- `EchonestExtension.__compute_markers` (lines 177-198): reads the four
widgets from the current builder (raises `AttributeError` if it is
`None`), sets the beat label to "beat"/"beats", computes the marker list
— `[m['start'] / t.duration for m in self.__current_track.beats[0::step]]`
when the range combo's active id is `'full'` (raises `AttributeError` if
the current track is `None`), `[]` otherwise — then calls
`set_markers` on the previewer (raises `AttributeError` if it is `None`)
and queues a redraw of its drawing area. -/
def compute_markers (st : ExtensionState) : Except PyExn (ExtensionState × List UIEvent) :=
  match st.current_builder with
  | none => .error .attributeError
  | some b =>
    let range_ := b.widgets.range_combo_active
    let step := pyTruncInt b.widgets.step_spinner_value
    let w1 := if step = 1 then { b.widgets with beat_label_text := "beat" }
              else { b.widgets with beat_label_text := "beats" }
    let markersE : Except PyExn (List ℚ) :=
      if range_ = "full" then
        match st.current_track with
        | none => .error .attributeError
        | some t =>
          match pySliceStep t.beats step with
          | .error e => .error e
          | .ok sel => .ok (sel.map (fun bt => bt.start / t.duration))
      else .ok []
    match markersE with
    | .error e => .error e
    | .ok markers =>
      match st.audio_previewer with
      | none => .error .attributeError
      | some p =>
        .ok ({ st with current_builder := some { b with widgets := w1 },
                       audio_previewer := some (set_markers p markers) },
             [UIEvent.queueDraw])

/-- `EchonestExtension.__prepare_beat_matcher` (lines 156-167): builds an
`AudioPreviewer` on the `waveform_area` drawing area, adds the
`AudioUriSource` style class, sets the markers to
`[beat['start'] / track.duration for beat in track.beats]`, makes the
four control widgets sensitive, and calls `__compute_markers`. -/
def prepare_beat_matcher (env : Env) (waves : WaveFS) (st : ExtensionState)
    (track : Track) (filename : String) : Except PyExn (ExtensionState × List UIEvent) :=
  match st.current_builder with
  | none => .error .attributeError
  | some b =>
    match audioPreviewer_init env waves track filename with
    | .error e => .error e
    | .ok p =>
      let markers := track.beats.map (fun bt => bt.start / track.duration)
      let p1 := set_markers p markers
      let w1 := { b.widgets with
                  range_sensitive := true
                  select_type_sensitive := true
                  distribution_sensitive := true
                  step_sensitive := true }
      let st1 := { st with
                   current_builder := some { b with widgets := w1 }
                   audio_previewer := some p1 }
      match compute_markers st1 with
      | .error e => .error e
      | .ok (st2, evs) => .ok (st2, [UIEvent.addStyleClass "AudioUriSource"] ++ evs)

/-- `EchonestExtension.__display_track_analysis` (lines 169-175): the
analysis-thread callback.  If the builder passed at request time is not
the current builder (stale callback) it returns immediately; otherwise it
stores the track, fills the metadata list, and prepares the beat
matcher. -/
def display_track_analysis (env : Env) (waves : WaveFS) (st : ExtensionState)
    (track : Track) (builder : Option Builder) (filename : String) :
    Except PyExn (ExtensionState × List UIEvent) :=
  if builder = st.current_builder then
    let st1 := { st with current_track := some track }
    match st1.current_builder with
    | none => .error .attributeError
    | some b =>
      match fill_metadata_list track b.widgets.metadata_labels with
      | .error e => .error e
      | .ok labels =>
        let b2 := { b with widgets := { b.widgets with metadata_labels := labels } }
        let st2 := { st1 with current_builder := some b2 }
        prepare_beat_matcher env waves st2 track filename
  else .ok (st, [])

/-! Concrete fixtures used by the witness theorems. -/

/-- A small concrete track: duration 4 s, beats at 1 s, 2 s, 3 s. -/
def trackA : Track :=
  { duration := 4, beats := [{ start := 1 }, { start := 2 }, { start := 3 }], attrs := [] }

/-- A concrete environment whose network calls succeed with `trackA`. -/
def envA : Env :=
  { hash_file := fun s => s ++ "#"
    xdg_cache_home := "/home/u/.cache"
    get_dir := fun s => s
    track_from_filename := fun _ => .ok trackA
    get_analysis := fun t => .ok t }

/-- Environment whose upload (`track_from_filename`) raises. -/
def envErr : Env := { envA with track_from_filename := fun _ => .error .socketErr }

/-- Environment whose `get_analysis` raises. -/
def envErr2 : Env := { envA with get_analysis := fun _ => .error .socketErr }

/-- Empty cache file system. -/
def fsEmpty : CacheFS := fun _ => none

/-- Cache holding a valid pickled `trackA` for `song.ogg`. -/
def fsHit : CacheFS :=
  fun p => if p = load_cache_path envA "song.ogg" then some (.valid trackA) else none

/-- Cache holding malformed bytes for `song.ogg`. -/
def fsBad : CacheFS :=
  fun p => if p = load_cache_path envA "song.ogg" then some .malformed else none

/-- A concrete builder: range combo on `beats`, step spinner at 2. -/
def bA : Builder :=
  { oid := 1
    widgets :=
      { range_combo_active := "beats"
        select_type_active := "every"
        distribution_active := "even"
        step_spinner_value := 2
        beat_label_text := ""
        range_sensitive := false
        select_type_sensitive := false
        distribution_sensitive := false
        step_sensitive := false
        metadata_labels := [] } }

/-- Waves cache holding peaks `[1, 2]` for `song.ogg`. -/
def wavesA : WaveFS :=
  fun p => if p = waves_cache_path envA "song.ogg" then some (.valid [1, 2]) else none

/-- Empty waves cache. -/
def wavesEmpty : WaveFS := fun _ => none

/-- Dialog state right before `__prepare_beat_matcher` runs. -/
def stA : ExtensionState :=
  { current_builder := some bA, current_track := some trackA, audio_previewer := none }

/-- The state `__prepare_beat_matcher` produces from `stA` with `envA` and
`wavesA`: label set to "beats", the four controls sensitive, and a fresh
previewer with empty markers (the range combo is not on `full`). -/
def stA1 : ExtensionState :=
  { current_builder := some { bA with widgets := { bA.widgets with
      beat_label_text := "beats"
      range_sensitive := true
      select_type_sensitive := true
      distribution_sensitive := true
      step_sensitive := true } }
    current_track := some trackA
    audio_previewer := some { peaks := [1, 2], max_peak := 2, track := trackA, markers := [] } }

/-- A previewer already attached to the dialog. -/
def pA : PreviewerState := { peaks := [1, 2], max_peak := 2, track := trackA, markers := [] }

/-- Dialog state with a previewer attached, as `__compute_markers` sees it. -/
def stB : ExtensionState :=
  { current_builder := some bA, current_track := some trackA, audio_previewer := some pA }

end EchonestModel

namespace EchonestModel

/-! Helper lemmas. -/

theorem everyNth_getElem? {α : Type} (s : Nat) (hs : 1 ≤ s) (l : List α) :
    ∀ (i : Nat), (everyNth s l)[i]? = l[i * s]? := by
  induction l using everyNth.induct s with
  | case1 => intro i; simp [everyNth]
  | case2 x xs ih =>
    intro i
    cases i with
    | zero => simp [everyNth]
    | succ j =>
      rw [everyNth]
      simp only [List.getElem?_cons_succ]
      rw [ih j]
      rw [List.getElem?_drop]
      have h3 : (j + 1) * s = j * s + s := by ring
      have h2 : (j + 1) * s = (s - 1 + j * s) + 1 := by omega
      rw [h2, List.getElem?_cons_succ]

theorem everyNth_mem {α : Type} (s : Nat) (l : List α) (x : α) :
    x ∈ everyNth s l → x ∈ l := by
  induction l using everyNth.induct s with
  | case1 => intro h; simp [everyNth] at h
  | case2 a xs ih =>
    intro h
    rw [everyNth] at h
    rcases List.mem_cons.mp h with h1 | h1
    · exact h1 ▸ List.mem_cons_self _ _
    · exact List.mem_cons_of_mem _ (List.drop_subset _ _ (ih h1))

theorem pySliceStep_mem {α : Type} (l : List α) (step : ℤ) (sel : List α)
    (h : pySliceStep l step = .ok sel) : ∀ x ∈ sel, x ∈ l := by
  intro x hx
  unfold pySliceStep at h
  split at h
  · exact absurd h (by simp)
  · split at h
    · cases h
      exact List.take_subset _ _ hx
    · cases h
      exact everyNth_mem _ _ _ hx

/-! Claim theorems. -/

/-- C1: `analysis_worker` first performs the cache load (the first event
is always the cache read, carrying the load's result); it performs the
network fetch (`track_from_filename`, then `get_analysis` and a cache
write on success) if and only if the cache load yields no track; on a
cache hit no network call and no cache write occur. -/
theorem claim1_worker_hit_avoids_network (env : Env) (fs : CacheFS) (filename : String)
    (hasCallback : Bool) :
    ((∃ t, load_from_cache env fs filename = .ok (some t)) →
      ((analysis_worker env fs filename hasCallback).events.filter Event.isNetwork = []
        ∧ (analysis_worker env fs filename hasCallback).events.filter Event.isCacheWrite = []))
    ∧ ((analysis_worker env fs filename hasCallback).events.head? =
        some (.cacheRead (load_cache_path env filename) (load_from_cache env fs filename)))
    ∧ (((analysis_worker env fs filename hasCallback).events.filter Event.isNetwork ≠ [])
        ↔ load_from_cache env fs filename = .ok none)
    ∧ (load_from_cache env fs filename = .ok none →
        (analysis_worker env fs filename hasCallback).events[1]? =
          some (.netTrackFromFilename filename))
    ∧ (∀ t0 t1, load_from_cache env fs filename = .ok none →
        env.track_from_filename filename = .ok t0 → env.get_analysis t0 = .ok t1 →
        (analysis_worker env fs filename hasCallback).events.filter Event.isCacheWrite =
          [.cacheWrite (save_cache_path env filename) t1]) := by
  rcases hl : load_from_cache env fs filename with e | tOpt
  · cases hasCallback <;>
      simp [analysis_worker, hl, Event.isNetwork, Event.isCacheWrite]
  · rcases tOpt with _ | t
    · rcases hn : env.track_from_filename filename with e0 | t0
      · cases hasCallback <;>
          simp [analysis_worker, hl, hn, Event.isNetwork, Event.isCacheWrite]
      · rcases ha : env.get_analysis t0 with e1 | t1
        · cases hasCallback <;>
            simp [analysis_worker, hl, hn, ha, Event.isNetwork, Event.isCacheWrite] <;>
            exact fun t0h t1h h1 h2 => by subst h1; rw [ha] at h2; cases h2
        · cases hasCallback <;>
            simp [analysis_worker, hl, hn, ha, Event.isNetwork, Event.isCacheWrite] <;>
            exact fun t0h t1h h1 h2 => by subst h1; rw [ha] at h2; cases h2; rfl
    · cases hasCallback <;>
        simp [analysis_worker, hl, Event.isNetwork, Event.isCacheWrite]

/-- C1 witness: on a concrete cache hit the worker makes no network call
and writes nothing. -/
theorem claim1_witness :
    (analysis_worker envA fsHit "song.ogg" true).events.filter Event.isNetwork = []
    ∧ (analysis_worker envA fsHit "song.ogg" true).events.filter Event.isCacheWrite = [] :=
  (claim1_worker_hit_avoids_network envA fsHit "song.ogg" true).1 ⟨trackA, by rfl⟩

/-- C2: `__load_from_cache` returns `None` when the cache file does not
exist (`IOError` from `open` is the only handled failure), returns the
unpickled track when the file holds a valid pickle, and propagates the
unpickling exception when the file is malformed. -/
theorem claim2_load_from_cache_error_handling (env : Env) (fs : CacheFS) (filename : String) :
    (fs (load_cache_path env filename) = none →
      load_from_cache env fs filename = .ok none)
    ∧ (∀ t, fs (load_cache_path env filename) = some (.valid t) →
      load_from_cache env fs filename = .ok (some t))
    ∧ (fs (load_cache_path env filename) = some .malformed →
      load_from_cache env fs filename = .error .unpicklingError) := by
  refine ⟨fun h => ?_, fun t h => ?_, fun h => ?_⟩ <;> simp [load_from_cache, h]

/-- C2 witness: concrete instances of all three cases. -/
theorem claim2_witness :
    load_from_cache envA fsEmpty "song.ogg" = .ok none
    ∧ load_from_cache envA fsHit "song.ogg" = .ok (some trackA)
    ∧ load_from_cache envA fsBad "song.ogg" = .error .unpicklingError :=
  ⟨(claim2_load_from_cache_error_handling envA fsEmpty "song.ogg").1 rfl,
   (claim2_load_from_cache_error_handling envA fsHit "song.ogg").2.1 trackA (by rfl),
   (claim2_load_from_cache_error_handling envA fsBad "song.ogg").2.2 (by rfl)⟩

/-- C3: on a cache miss, if either network call raises, the exception
escapes `analysis_worker` (killing the thread), the cache is not written
(the file system is returned unchanged) and the callback is never
invoked. -/
theorem claim3_worker_network_error_propagates (env : Env) (fs : CacheFS) (filename : String)
    (hasCallback : Bool) (e : PyExn)
    (hmiss : load_from_cache env fs filename = .ok none) :
    (env.track_from_filename filename = .error e →
      (analysis_worker env fs filename hasCallback).err = some e
      ∧ (analysis_worker env fs filename hasCallback).fs = fs
      ∧ (analysis_worker env fs filename hasCallback).events.filter Event.isCacheWrite = []
      ∧ (analysis_worker env fs filename hasCallback).events.filter Event.isCallback = [])
    ∧ (∀ t0, env.track_from_filename filename = .ok t0 →
        env.get_analysis t0 = .error e →
        (analysis_worker env fs filename hasCallback).err = some e
        ∧ (analysis_worker env fs filename hasCallback).fs = fs
        ∧ (analysis_worker env fs filename hasCallback).events.filter Event.isCacheWrite = []
        ∧ (analysis_worker env fs filename hasCallback).events.filter Event.isCallback = []) := by
  constructor
  · intro hn
    simp [analysis_worker, hmiss, hn, Event.isCacheWrite, Event.isCallback]
  · intro t0 hn ha
    simp [analysis_worker, hmiss, hn, ha, Event.isCacheWrite, Event.isCallback]

/-- C3 witness: a concrete failing upload leaves the cache alone and
never reaches the callback. -/
theorem claim3_witness :
    (analysis_worker envErr fsEmpty "song.ogg" true).err = some .socketErr
    ∧ (analysis_worker envErr fsEmpty "song.ogg" true).fs = fsEmpty
    ∧ (analysis_worker envErr fsEmpty "song.ogg" true).events.filter Event.isCacheWrite = []
    ∧ (analysis_worker envErr fsEmpty "song.ogg" true).events.filter Event.isCallback = [] :=
  (claim3_worker_network_error_propagates envErr fsEmpty "song.ogg" true .socketErr rfl).1 rfl

/-- C4: `__save_to_cache` and `__load_from_cache` derive the identical
cache file path, and a save followed by a load for the same filename
returns the saved track. -/
theorem claim4_cache_roundtrip (env : Env) (fs : CacheFS) (filename : String) (t : Track) :
    save_cache_path env filename = load_cache_path env filename
    ∧ load_from_cache env (save_to_cache env fs filename t) filename = .ok (some t) := by
  constructor
  · rfl
  · simp [load_from_cache, save_to_cache, save_cache_path, load_cache_path]

/-- C4 witness: concrete save-then-load round trip. -/
theorem claim4_witness :
    load_from_cache envA (save_to_cache envA fsEmpty "song.ogg" trackA) "song.ogg" =
      .ok (some trackA) :=
  (claim4_cache_roundtrip envA fsEmpty "song.ogg" trackA).2

/-- C7: every `__analyse_track` call performs exactly the operation
sequence create-one-thread / set-daemon-true / start, with
`analysis_worker` and the request's arguments as the target; it never
joins (so no timeout) nor cancels, and two calls — even with identical
arguments — each create their own thread (no deduplication). -/
theorem claim7_analyse_track_spawns_one_thread (f f1 : String) (cb cb1 : Bool)
    (env : Env) (fs : CacheFS) :
    analyse_track f cb =
      [.create { filename := f, hasCallback := cb }, .setDaemon true, .start]
    ∧ ((analyse_track f cb).filter ThreadOp.isCreate).length = 1
    ∧ (∀ ts, ThreadOp.join ts ∉ analyse_track f cb)
    ∧ ThreadOp.cancel ∉ analyse_track f cb
    ∧ run_thread env fs { filename := f, hasCallback := cb } = analysis_worker env fs f cb
    ∧ ((analyse_track f cb ++ analyse_track f1 cb1).filter ThreadOp.isCreate).length = 2 := by
  refine ⟨rfl, by simp [analyse_track, ThreadOp.isCreate], ?_, ?_, rfl, ?_⟩
  · intro ts
    simp [analyse_track]
  · simp [analyse_track]
  · simp [analyse_track, ThreadOp.isCreate]

/-- C7 witness: two identical concrete requests create two threads. -/
theorem claim7_witness :
    ((analyse_track "a.ogg" true ++ analyse_track "a.ogg" true).filter
      ThreadOp.isCreate).length = 2 :=
  (claim7_analyse_track_spawns_one_thread "a.ogg" "a.ogg" true true envA fsEmpty).2.2.2.2.2

/-- Every marker a successful `__compute_markers` run stores is the
start/duration ratio of some beat of the current track. -/
theorem compute_markers_marker_sound (st st1 : ExtensionState) (evs : List UIEvent) (t : Track)
    (h : compute_markers st = .ok (st1, evs))
    (hct : st.current_track = some t) :
    ∃ p1, st1.audio_previewer = some p1
      ∧ (∀ m ∈ p1.markers, ∃ bt ∈ t.beats, m = bt.start / t.duration) := by
  rcases hb : st.current_builder with _ | b
  · simp only [compute_markers, hb] at h
    exact Except.noConfusion h
  · by_cases hr : b.widgets.range_combo_active = "full"
    · simp only [compute_markers, hb, hct, if_pos hr] at h
      rcases hs : pySliceStep t.beats (pyTruncInt b.widgets.step_spinner_value) with e | sel
      · simp only [hs] at h
        exact Except.noConfusion h
      · simp only [hs] at h
        rcases hp : st.audio_previewer with _ | p
        · simp only [hp] at h
          exact Except.noConfusion h
        · simp only [hp] at h
          injection h with h2
          injection h2 with h3 h4
          subst h3
          refine ⟨_, rfl, ?_⟩
          intro m hm
          rcases List.mem_map.mp hm with ⟨bt, hbt, hval⟩
          exact ⟨bt, pySliceStep_mem t.beats _ sel hs bt hbt, hval.symm⟩
    · simp only [compute_markers, hb, if_neg hr] at h
      rcases hp : st.audio_previewer with _ | p
      · simp only [hp] at h
        exact Except.noConfusion h
      · simp only [hp] at h
        injection h with h2
        injection h2 with h3 h4
        subst h3
        exact ⟨_, rfl, fun m hm => absurd hm (List.not_mem_nil m)⟩

/-- C5: after a successful `__prepare_beat_matcher` run (in which
`__display_track_analysis` has made `track` the current track), every
stored beat-marker position equals some beat's start time divided by the
track's duration, and `draw_cb` renders, for each marker `m`, one
vertical line from `(m * width, 0)` to `(m * width, height)`. -/
theorem claim5_markers_are_beat_ratios (env : Env) (waves : WaveFS) (st : ExtensionState)
    (track : Track) (filename : String) (st1 : ExtensionState) (evs : List UIEvent)
    (hct : st.current_track = some track)
    (h : prepare_beat_matcher env waves st track filename = .ok (st1, evs)) :
    ∃ p1, st1.audio_previewer = some p1
      ∧ (∀ m ∈ p1.markers, ∃ bt ∈ track.beats, m = bt.start / track.duration)
      ∧ (∀ w hgt, (draw_cb p1 w hgt).lines = p1.markers.map (fun m =>
          { x1 := m * (w : ℚ), y1 := 0, x2 := m * (w : ℚ), y2 := (hgt : ℚ) })) := by
  rcases hb : st.current_builder with _ | b
  · simp only [prepare_beat_matcher, hb] at h
    exact Except.noConfusion h
  · rcases hi : audioPreviewer_init env waves track filename with e | p
    · simp only [prepare_beat_matcher, hb, hi] at h
      exact Except.noConfusion h
    · simp only [prepare_beat_matcher, hb, hi] at h
      split at h
      · exact Except.noConfusion h
      · rename_i st2 evs2 heq
        injection h with h2
        injection h2 with h3 h4
        subst h3
        rcases compute_markers_marker_sound _ _ _ track heq hct with ⟨p1, hp1, hmem⟩
        exact ⟨p1, hp1, hmem, fun w hgt => rfl⟩

/-- C5 witness: the concrete prepare run on `stA` yields a previewer
whose markers are all beat ratios (here the empty list) and whose draw
calls render one line per marker. -/
theorem claim5_witness :
    ∃ p1, stA1.audio_previewer = some p1
      ∧ (∀ m ∈ p1.markers, ∃ bt ∈ trackA.beats, m = bt.start / trackA.duration)
      ∧ (∀ w hgt, (draw_cb p1 w hgt).lines = p1.markers.map (fun m =>
          { x1 := m * (w : ℚ), y1 := 0, x2 := m * (w : ℚ), y2 := (hgt : ℚ) })) :=
  claim5_markers_are_beat_ratios envA wavesA stA trackA "song.ogg" stA1
    [UIEvent.addStyleClass "AudioUriSource", UIEvent.queueDraw] rfl (by decide)

/-- C6: when the waves cache holds a non-empty peak list for the clip,
`AudioPreviewer.__init__` succeeds, stores exactly that peak list and its
maximum with no markers, and every `draw_cb` invocation passes that
unmodified peak list, the drawing area's current width and height, and
the recorded maximum to `renderer.fill_surface`. -/
theorem claim6_previewer_is_passthrough (env : Env) (waves : WaveFS) (track : Track)
    (clip_filename : String) (peaks : List ℚ)
    (hw : waves (waves_cache_path env clip_filename) = some (.valid peaks))
    (hne : peaks ≠ []) :
    ∃ p, audioPreviewer_init env waves track clip_filename = .ok p
      ∧ p.peaks = peaks
      ∧ p.track = track
      ∧ p.markers = []
      ∧ pyMax peaks = .ok p.max_peak
      ∧ (∀ w hgt, (draw_cb p w hgt).fill =
          { peaks := peaks, width := w, height := hgt, max_peak := p.max_peak }) := by
  rcases peaks with _ | ⟨x, xs⟩
  · exact absurd rfl hne
  · have hinit : audioPreviewer_init env waves track clip_filename =
        .ok { peaks := x :: xs, max_peak := xs.foldl max x, track := track, markers := [] } := by
      simp [audioPreviewer_init, hw, pyMax]
    exact ⟨_, hinit, rfl, rfl, rfl, rfl, fun w hgt => rfl⟩

/-- C6 witness: concrete construction over the peaks `[1, 2]`. -/
theorem claim6_witness :
    ∃ p, audioPreviewer_init envA wavesA trackA "song.ogg" = .ok p
      ∧ p.peaks = [1, 2]
      ∧ p.track = trackA
      ∧ p.markers = []
      ∧ pyMax [1, 2] = .ok p.max_peak
      ∧ (∀ w hgt, (draw_cb p w hgt).fill =
          { peaks := [1, 2], width := w, height := hgt, max_peak := p.max_peak }) :=
  claim6_previewer_is_passthrough envA wavesA trackA "song.ogg" [1, 2] rfl (by decide)

/-- C8: a stale `__display_track_analysis` callback (its builder is not
the current builder) returns immediately: the extension state —
`__current_track`, `__audio_previewer` and every widget of the current
builder — is unchanged and no GUI effect is produced. -/
theorem claim8_stale_callback_is_noop (env : Env) (waves : WaveFS) (st : ExtensionState)
    (track : Track) (builder : Option Builder) (filename : String)
    (h : builder ≠ st.current_builder) :
    display_track_analysis env waves st track builder filename = .ok (st, []) := by
  simp [display_track_analysis, h]

/-- C8 witness: a callback carrying builder `None` while the dialog's
builder is current leaves the concrete state untouched. -/
theorem claim8_witness :
    display_track_analysis envA wavesA stA trackA none "song.ogg" = .ok (stA, []) :=
  claim8_stale_callback_is_noop envA wavesA stA trackA none "song.ogg" (by decide)

/-- C9: with the dialog populated (builder, track and previewer present)
and the step spinner reading `step >= 1`, `__compute_markers` queues
exactly one redraw and sets the previewer's markers to the
start/duration ratios of beats 0, step, 2*step, ... when the range combo
is on `full`, and to the empty list for every other range id. -/
theorem claim9_compute_markers_steps (st : ExtensionState) (b : Builder) (t : Track)
    (p : PreviewerState)
    (hb : st.current_builder = some b)
    (ht : st.current_track = some t)
    (hp : st.audio_previewer = some p)
    (hstep : 1 ≤ pyTruncInt b.widgets.step_spinner_value) :
    ∃ st1, compute_markers st = .ok (st1, [UIEvent.queueDraw])
      ∧ ∃ p1, st1.audio_previewer = some p1
        ∧ (b.widgets.range_combo_active = "full" →
            ∀ i : Nat, p1.markers[i]? =
              (t.beats[i * (pyTruncInt b.widgets.step_spinner_value).toNat]?).map
                (fun bt => bt.start / t.duration))
        ∧ (b.widgets.range_combo_active ≠ "full" → p1.markers = []) := by
  have h0 : pyTruncInt b.widgets.step_spinner_value ≠ 0 := by omega
  have hneg : ¬ pyTruncInt b.widgets.step_spinner_value < 0 := by omega
  by_cases hr : b.widgets.range_combo_active = "full"
  · refine ⟨{ st with
        current_builder := some { b with widgets :=
          (if pyTruncInt b.widgets.step_spinner_value = 1
           then { b.widgets with beat_label_text := "beat" }
           else { b.widgets with beat_label_text := "beats" }) }
        audio_previewer := some (set_markers p
          ((everyNth (pyTruncInt b.widgets.step_spinner_value).toNat t.beats).map
            (fun bt => bt.start / t.duration))) }, ?_, ?_⟩
    · simp only [compute_markers, hb, ht, hp, if_pos hr, pySliceStep, if_neg h0, if_neg hneg]
    · refine ⟨_, rfl, fun _ i => ?_, fun hc => absurd hr hc⟩
      show ((everyNth (pyTruncInt b.widgets.step_spinner_value).toNat t.beats).map
        (fun bt => bt.start / t.duration))[i]? = _
      rw [List.getElem?_map]
      rw [everyNth_getElem? _ (by omega) t.beats i]
  · refine ⟨{ st with
        current_builder := some { b with widgets :=
          (if pyTruncInt b.widgets.step_spinner_value = 1
           then { b.widgets with beat_label_text := "beat" }
           else { b.widgets with beat_label_text := "beats" }) }
        audio_previewer := some (set_markers p []) }, ?_, ?_⟩
    · simp only [compute_markers, hb, hp, if_neg hr]
    · exact ⟨_, rfl, fun hc => absurd hc hr, fun _ => rfl⟩

/-- C9 witness: the concrete dialog state `stB` (range combo on `beats`,
step 2) yields one redraw and empty markers. -/
theorem claim9_witness :
    ∃ st1, compute_markers stB = .ok (st1, [UIEvent.queueDraw])
      ∧ ∃ p1, st1.audio_previewer = some p1
        ∧ (bA.widgets.range_combo_active = "full" →
            ∀ i : Nat, p1.markers[i]? =
              (trackA.beats[i * (pyTruncInt bA.widgets.step_spinner_value).toNat]?).map
                (fun bt => bt.start / trackA.duration))
        ∧ (bA.widgets.range_combo_active ≠ "full" → p1.markers = []) :=
  claim9_compute_markers_steps stB bA trackA pA rfl rfl rfl (by decide)

/-- C10: `AudioPreviewer.__init__` succeeds exactly when the waves cache
holds a valid non-empty peak list for the clip; a missing file raises
`IOError` (no handler, unlike the analysis cache), malformed bytes raise
the unpickling error, and an empty peak list makes `max` raise
`ValueError`. -/
theorem claim10_previewer_init_iff (env : Env) (waves : WaveFS) (track : Track)
    (clip_filename : String) :
    ((∃ p, audioPreviewer_init env waves track clip_filename = .ok p) ↔
      ∃ peaks, waves (waves_cache_path env clip_filename) = some (.valid peaks) ∧ peaks ≠ [])
    ∧ (waves (waves_cache_path env clip_filename) = none →
        audioPreviewer_init env waves track clip_filename = .error .ioError)
    ∧ (waves (waves_cache_path env clip_filename) = some .malformed →
        audioPreviewer_init env waves track clip_filename = .error .unpicklingError)
    ∧ (waves (waves_cache_path env clip_filename) = some (.valid []) →
        audioPreviewer_init env waves track clip_filename = .error .valueError) := by
  refine ⟨⟨?_, ?_⟩, fun hw => by simp [audioPreviewer_init, hw],
    fun hw => by simp [audioPreviewer_init, hw],
    fun hw => by simp [audioPreviewer_init, hw, pyMax]⟩
  · rintro ⟨p, hp⟩
    rw [audioPreviewer_init] at hp
    rcases hw : waves (waves_cache_path env clip_filename) with _ | entry
    · rw [hw] at hp; cases hp
    · rcases entry with peaks | _
      · rcases peaks with _ | ⟨x, xs⟩
        · rw [hw] at hp; simp [pyMax] at hp
        · exact ⟨x :: xs, rfl, by simp⟩
      · rw [hw] at hp; cases hp
  · rintro ⟨peaks, hw, hne⟩
    rcases peaks with _ | ⟨x, xs⟩
    · exact absurd rfl hne
    · have hinit : audioPreviewer_init env waves track clip_filename =
          .ok { peaks := x :: xs, max_peak := xs.foldl max x, track := track, markers := [] } := by
        simp [audioPreviewer_init, hw, pyMax]
      exact ⟨_, hinit⟩

/-- C10 witness: with an empty waves cache the constructor raises
`IOError`. -/
theorem claim10_witness :
    audioPreviewer_init envA wavesEmpty trackA "song.ogg" = .error .ioError :=
  (claim10_previewer_init_iff envA wavesEmpty trackA "song.ogg").2.1 rfl

end EchonestModel

